import Mathlib

/-
  Verification development for the OLS / robust-inference component of the
  pymer4 repository (src/pymer4/models.py, classes Lm and Lm2).

  The orchestration logic of Lm.fit / Lm2.fit is translated from
  src/pymer4/models.py.  Numeric helpers that live in pymer4.utils and
  pymer4.stats (not part of the sources given) are modelled from the spec
  where their behaviour decides a claim, and otherwise kept abstract as
  oracle parameters, mirroring the module boundary of the source.
-/

namespace Pymer4

/-- Python-style `robust` argument of `Lm.fit` / `Lm2.fit`: either a bool or a
string naming the estimator (models.py, fit signature). -/
inductive RobustArg where
  | rbool (b : Bool)
  | rstr (s : String)
deriving DecidableEq, Repr

/-- Python truthiness of the `robust` argument: a bool is truthy iff `true`,
a string iff non-empty. -/
def robustTruthy : RobustArg → Bool
  | RobustArg.rbool b => b
  | RobustArg.rstr s => s ≠ ""

/-- Normalisation of the `robust` argument performed at the top of
`Lm.fit` / `Lm2.fit` (models.py lines 1393-1396 and 1860-1863):
`if robust: if isinstance(robust, bool): robust = dflt`.  Returns `none` when
`robust` is falsy (no robust estimator selected), otherwise the estimator
name, with a truthy bool replaced by the default `dflt`. -/
def normRobust (dflt : String) : RobustArg → Option String
  | RobustArg.rbool b => if b then some dflt else none
  | RobustArg.rstr s => if s ≠ "" then some s else none

/-- The `se_type` attribute set by `Lm.fit` / `Lm2.fit`:
`"robust (<estimator>)"` when a robust estimator was selected, else
`"non-robust"` (models.py lines 1396, 1405). -/
def seType : Option String → String
  | some s => "robust (" ++ s ++ ")"
  | none => "non-robust"

/-- The `weights` argument of `Lm.fit`: absent, a column name (represented by
the groupby result it induces: group label with that group's dv values), or an
explicit weight array. -/
inductive WeightsArg where
  | noW
  | wcol (groups : List (String × List ℚ))
  | warray (ws : List ℚ)
deriving DecidableEq, Repr

/-- Numeric value of the optional `permute` argument (`None` ↦ 0). -/
def permVal : Option ℕ → ℕ
  | none => 0
  | some P => P

/-- Python truthiness of the `permute` argument: `None` and `0` are falsy. -/
def permTruthy (o : Option ℕ) : Bool := permVal o ≠ 0

/-- Number of distinct values of a column, as in pandas `Series.nunique()`. -/
def nunique (l : List ℤ) : ℕ := l.dedup.length

/-- Modelled from the spec: `_sig_stars` of pymer4.utils (not under the given
sources).  Significance marker by fixed thresholds: `"***"` p<0.001, `"**"`
p<0.01, `"*"` p<0.05, `"."` p<0.1, `""` otherwise (spec section 4.4). -/
def sigStars (p : ℚ) : String :=
  if p < 1/1000 then "***"
  else if p < 1/100 then "**"
  else if p < 1/20 then "*"
  else if p < 1/10 then "."
  else ""

/-- Modelled from the spec: `_perm_find` of pymer4.utils (not under the given
sources).  Two-sided empirical p-value of an observed statistic against a null
distribution: (count of permuted statistics with absolute value at least the
absolute observed statistic + 1) / (number of permuted statistics + 1)
(spec section 4.3). -/
def permFind (dist : List ℚ) (tObs : ℚ) : ℚ :=
  ((dist.countP (fun x => |tObs| ≤ |x|) : ℚ) + 1) / ((dist.length : ℚ) + 1)

/-- Arithmetic mean of a list of rationals. -/
def listMean (xs : List ℚ) : ℚ := xs.sum / (xs.length : ℚ)

/-- Sample variance with one delta degree of freedom, as in numpy
`var(ddof=1)`. -/
def sampleVar (xs : List ℚ) : ℚ :=
  ((xs.map (fun x => (x - listMean xs) ^ 2)).sum) / ((xs.length : ℚ) - 1)

/-- Modelled from the spec: `_welch_ingredients` of pymer4.stats (not under
the given sources).  For one group with values `xs` it yields the pair
(sᵢ², sᵢ⁴/(nᵢ−1)) entering the Welch-Satterthwaite formula
df = (Σᵢ sᵢ²)² / Σᵢ (sᵢ⁴/(nᵢ−1)) with sᵢ² the per-group variance estimate
(spec section 4.1). -/
def welchIngredients (xs : List ℚ) : ℚ × ℚ :=
  (sampleVar xs, sampleVar xs ^ 2 / ((xs.length : ℚ) - 1))

/-- The Welch-Satterthwaite degrees of freedom computed by `Lm.fit`
(models.py lines 1506-1514): square of the summed first ingredients over the
summed second ingredients. -/
def welchDf (groups : List (String × List ℚ)) : ℚ :=
  ((groups.map (fun g => (welchIngredients g.2).1)).sum) ^ 2
    / ((groups.map (fun g => (welchIngredients g.2).2)).sum)

/-- A data table: ordered named columns of rational values. -/
abbrev Table := List (String × List ℚ)

/-- Pandas-style column assignment `data[k] = v`: replace the column named `k`
in place if present, otherwise append it at the end. -/
def setCol : Table → String → List ℚ → Table
  | [], k, v => [(k, v)]
  | (k', v') :: rest, k, v =>
    if k' = k then (k, v) :: rest else (k', v') :: setCol rest k v

/-- Column lookup in a table. -/
def getCol : Table → String → Option (List ℚ)
  | [], _ => none
  | (k', v') :: rest, k => if k' = k then some v' else getCol rest k

/-- Output of the `_ols` point/variance estimator of pymer4.utils (not under
the given sources; `Lm.fit` consumes it at models.py lines 1484-1492):
coefficients, standard errors, t-statistics, residuals. -/
structure OlsOut where
  b : List ℚ
  se : List ℚ
  t : List ℚ
  res : List ℚ
deriving DecidableEq, Repr

/-- Modelled from the spec: the numeric engines `Lm.fit` delegates to, which
live outside the given sources (pymer4.utils `_ols`, `_chunk_boot_ols_coefs`,
`_chunk_perm_ols` and scipy's Student-t distribution).  They are kept
abstract as oracles; `ols` and `permTs` receive the normalised robust
estimator name exactly as the source passes the reassigned `robust` variable,
while the bootstrap ignores the robust setting (models.py line 1528). -/
structure LmExt where
  ols : Option String → OlsOut
  tcdf : ℚ → ℚ → ℚ
  tppf : ℚ → ℚ → ℚ
  bootCI : List (ℚ × ℚ)
  permTs : Option String → List (List ℚ)

/-- Arguments of `Lm.fit` relevant to the modelled component
(models.py lines 1319-1333).  `cluster` carries the values of the named
cluster column when one is given and present in the data. -/
structure LmArgs where
  conf_int : String := "standard"
  permute : Option ℕ := none
  n_boot : ℕ := 500
  n_jobs : ℕ := 1
  cluster : Option (List ℤ) := none
  weights : WeightsArg := WeightsArg.noW
  wls_dof_correction : Bool := true
deriving Repr

/-- The model state `Lm.fit` reads: the stored data table, the design matrix
shape n×p produced by patsy, and the response vector. -/
structure LmInput where
  data : Table
  n : ℕ
  p : ℕ
  y : List ℚ
deriving Repr

/-- Observable outcome of one `Lm.fit` call: warnings accumulated on the
model, the summary attributes, the coefficient table contents (columns, DF,
p-values, significance markers, CI bounds), the worker count used for
permutation dispatch, the permutation count, residuals and the mutated data
table. -/
structure LmFitResult where
  warnings : List String
  se_type : String
  ci_type : String
  sig_type : String
  estimator : String
  df0 : ℚ
  dfVec : List ℚ
  pVec : List ℚ
  sigVec : List String
  ciL : List ℚ
  ciU : List ℚ
  columns : List String
  permJobs : Option ℕ
  numPerm : Option ℕ
  resid : List ℚ
  dataOut : Table
  fitted : Bool
deriving Repr

/-- Column names of the `Lm.fit` coefficient table (models.py lines
1579-1588). -/
def lmBaseColumns : List String :=
  ["Estimate", "2.5_ci", "97.5_ci", "SE", "DF", "T-stat", "P-val", "Sig"]

/-- Column names after the permutation rename `DF → Num_perm`,
`P-val → Perm-P-val` (models.py line 1598). -/
def lmPermColumns : List String :=
  ["Estimate", "2.5_ci", "97.5_ci", "SE", "Num_perm", "T-stat", "Perm-P-val", "Sig"]

/-- Warning text for low permutation counts (models.py line 1390). -/
def lmPermWarnMsg : String :=
  "Permutation testing < 500 permutations is not recommended"

/-- Warning text for the unsupported Welch-Satterthwaite case
(models.py line 1502). -/
def lmWlsWarnMsg : String :=
  "Welch-Satterthwait DOF correction only supported for 2 groups in the data"

/-- Body of `Lm.fit` (models.py lines 1389-1543 and 1575-1605) after the
initial normalisation of `robust`, before the permutation override:
low-permutation warning; `se_type`/`ci_type`/`sig_type` attributes;
estimator label; degrees of freedom (cluster-corrected, Welch-Satterthwaite
corrected with its warning, or n−p); parametric p-values and significance
stars; confidence bounds (bootstrap percentiles or parametric); the column
naming and the data-table mutation adding fits and residuals. -/
def lmFitBase (robustN : Option String) (a : LmArgs) (inp : LmInput)
    (ext : LmExt) : LmFitResult :=
  let permWarnL : List String :=
    if permTruthy a.permute ∧ permVal a.permute < 500 then [lmPermWarnMsg] else []
  let o := ext.ols robustN
  let wlsWarnL : List String :=
    match a.cluster, a.weights with
    | none, WeightsArg.wcol groups =>
        if a.wls_dof_correction ∧ groups.length ≠ 2 then [lmWlsWarnMsg] else []
    | _, _ => []
  let df0 : ℚ :=
    match a.cluster with
    | some c => (nunique c : ℚ) - (inp.p : ℚ)
    | none =>
      match a.weights with
      | WeightsArg.wcol groups =>
          if a.wls_dof_correction ∧ groups.length = 2 then welchDf groups
          else (inp.n : ℚ) - (inp.p : ℚ)
      | _ => (inp.n : ℚ) - (inp.p : ℚ)
  let p0 : List ℚ := o.t.map (fun ti => 2 * (1 - ext.tcdf |ti| df0))
  let sig0 := p0.map sigStars
  let ciPair : List ℚ × List ℚ :=
    if a.conf_int = "boot" then (ext.bootCI.map Prod.fst, ext.bootCI.map Prod.snd)
    else
      (List.zipWith (fun bi si => bi + ext.tppf (1/40) df0 * si) o.b o.se,
       List.zipWith (fun bi si => bi + ext.tppf (39/40) df0 * si) o.b o.se)
  let fitsV : List ℚ := List.zipWith (fun yi ri => yi - ri) inp.y o.res
  { warnings := permWarnL ++ wlsWarnL
    se_type := seType robustN
    ci_type :=
      if a.conf_int = "boot" then a.conf_int ++ " (" ++ toString a.n_boot ++ ")"
      else a.conf_int
    sig_type :=
      if a.conf_int = "boot" ∧ a.permute = none then "bootstrapped"
      else if permTruthy a.permute then
        "permutation (" ++ toString (permVal a.permute) ++ ")"
      else "parametric"
    estimator :=
      match a.weights with
      | WeightsArg.noW => "OLS"
      | _ => "WLS"
    df0 := df0
    dfVec := List.replicate o.t.length df0
    pVec := p0
    sigVec := sig0
    ciL := ciPair.1
    ciU := ciPair.2
    columns := lmBaseColumns
    permJobs := none
    numPerm := none
    resid := o.res
    dataOut := setCol (setCol inp.data "fits" fitsV) "residuals" o.res
    fitted := true }

/-- The permutation branch of the fit body (models.py lines 1545-1573 and
1597-1598): replaces p-values by `_perm_find` empirical p-values computed
per design-matrix column against the permuted t-statistics, replaces the DF
column by the permutation count, recomputes significance stars, renames the
columns, and forces a single worker when a robust estimator is active. -/
def lmFitCore (robustN : Option String) (a : LmArgs) (inp : LmInput)
    (ext : LmExt) : LmFitResult :=
  let base := lmFitBase robustN a inp ext
  if permTruthy a.permute then
    let P := permVal a.permute
    let ts := ext.permTs robustN
    let w := (ts.headD []).length
    let p1 : List ℚ :=
      List.zipWith (fun i ti => permFind (ts.map (fun row => row.getD i 0)) ti)
        (List.range w) (ext.ols robustN).t
    { base with
        dfVec := List.replicate p1.length (P : ℚ)
        pVec := p1
        sigVec := p1.map sigStars
        columns := lmPermColumns
        permJobs := some (if robustN.isSome then 1 else a.n_jobs)
        numPerm := some P }
  else base

/-- `Lm.fit` (models.py line 1319): normalises `robust` with default
estimator `"hc1"` (lines 1393-1396) and runs the fit body, which uses only
the reassigned (normalised) value. -/
def lmFit (robust : RobustArg) (a : LmArgs) (inp : LmInput) (ext : LmExt) :
    LmFitResult :=
  lmFitCore (normRobust "hc1" robust) a inp ext

/-- `Lm2.fit`'s normalisation of `robust` (models.py lines 1860-1863):
identical shape to `Lm.fit`'s but with default estimator `"hc0"`. -/
def lm2NormRobust : RobustArg → Option String := normRobust "hc0"

/-- Column names of a table, in order. -/
def keys (t : Table) : List String := t.map Prod.fst

/-- Concrete oracle fixture used to exercise the fit on explicit inputs. -/
def extC : LmExt :=
  { ols := fun _ => { b := [1], se := [1], t := [2], res := [0, 0] }
    tcdf := fun _ _ => 19/20
    tppf := fun _ _ => 2
    bootCI := [(1, 3)]
    permTs := fun _ => [[1], [3]] }

/-- Concrete model-state fixture: a two-row table with response column
`DV`, predictor column `X`, intercept-only design (p = 1). -/
def inpC : LmInput :=
  { data := [("DV", [0, 1]), ("X", [0, 1])], n := 2, p := 1, y := [0, 1] }

/-- The normalised robust argument is present exactly when the raw argument
is Python-truthy. -/
theorem normRobust_isSome (d : String) (r : RobustArg) :
    (normRobust d r).isSome = robustTruthy r := by
  cases r with
  | rbool b => cases b <;> simp [normRobust, robustTruthy]
  | rstr s => by_cases h : s = "" <;> simp [normRobust, robustTruthy, h]

/-- Reading back the column just assigned returns the assigned values. -/
theorem getCol_setCol_self (t : Table) (k : String) (v : List ℚ) :
    getCol (setCol t k v) k = some v := by
  induction t with
  | nil => simp [setCol, getCol]
  | cons hd tl ih =>
    obtain ⟨k', v'⟩ := hd
    by_cases h : k' = k
    · simp [setCol, getCol, h]
    · simp [setCol, getCol, h, ih]

/-- Assigning one column leaves every other column unchanged. -/
theorem getCol_setCol_ne (t : Table) (k c : String) (v : List ℚ)
    (h : c ≠ k) : getCol (setCol t k v) c = getCol t c := by
  induction t with
  | nil => simp [setCol, getCol, Ne.symm h]
  | cons hd tl ih =>
    obtain ⟨k', v'⟩ := hd
    by_cases hk : k' = k
    · subst hk
      simp [setCol, getCol, Ne.symm h]
    · by_cases hc : k' = c
      · subst hc
        simp [setCol, getCol, hk, h]
      · simp [setCol, getCol, hk, hc, ih]

/-- The column names after an assignment are the old ones plus the assigned
name. -/
theorem mem_keys_setCol (t : Table) (k c : String) (v : List ℚ) :
    c ∈ keys (setCol t k v) ↔ c ∈ keys t ∨ c = k := by
  induction t with
  | nil => simp [setCol, keys]
  | cons hd tl ih =>
    obtain ⟨k', v'⟩ := hd
    by_cases hk : k' = k
    · subst hk
      by_cases hc : c = k' <;> simp [setCol, keys, hc] <;> tauto
    · simp only [setCol, if_neg hk, keys, List.map_cons, List.mem_cons] at *
      tauto

/-- The empirical p-value of `permFind` is (c+1)/(L+1) for a count
c ≤ L of at-least-as-extreme permuted statistics, hence lies in (0, 1]. -/
theorem permFind_spec (dist : List ℚ) (tObs : ℚ) :
    ∃ c : ℕ, c ≤ dist.length ∧
      permFind dist tObs = ((c : ℚ) + 1) / ((dist.length : ℚ) + 1) ∧
      0 < permFind dist tObs ∧ permFind dist tObs ≤ 1 := by
  refine ⟨dist.countP (fun x => decide (|tObs| ≤ |x|)), List.countP_le_length _, ?_, ?_, ?_⟩
  · rfl
  · apply div_pos <;> positivity
  · rw [permFind, div_le_one (by positivity)]
    have h := List.countP_le_length (l := dist) (p := fun x => decide (|tObs| ≤ |x|))
    exact_mod_cast Nat.succ_le_succ h

/-- The data-table mutation performed by the fit body is the same in the
permutation and non-permutation branches: assign `fits` then `residuals`. -/
theorem lmFitCore_dataOut (robustN : Option String) (a : LmArgs)
    (inp : LmInput) (ext : LmExt) :
    (lmFitCore robustN a inp ext).dataOut =
      setCol
        (setCol inp.data "fits"
          (List.zipWith (fun yi ri => yi - ri) inp.y (ext.ols robustN).res))
        "residuals" (ext.ols robustN).res := by
  unfold lmFitCore
  split <;> rfl

/-- The fit result of `Lm.fit` has the same data-table mutation in both
branches. -/
theorem lmFit_dataOut (r : RobustArg) (a : LmArgs) (inp : LmInput)
    (ext : LmExt) :
    (lmFit r a inp ext).dataOut =
      setCol
        (setCol inp.data "fits"
          (List.zipWith (fun yi ri => yi - ri) inp.y
            (ext.ols (normRobust "hc1" r)).res))
        "residuals" (ext.ols (normRobust "hc1" r)).res :=
  lmFitCore_dataOut _ a inp ext

/-- The parametric degrees of freedom are computed before (and unchanged by)
the permutation override. -/
theorem lmFitCore_df0 (robustN : Option String) (a : LmArgs) (inp : LmInput)
    (ext : LmExt) :
    (lmFitCore robustN a inp ext).df0 = (lmFitBase robustN a inp ext).df0 := by
  unfold lmFitCore
  split <;> rfl

/-- Warnings are accumulated before (and unchanged by) the permutation
override. -/
theorem lmFitCore_warnings (robustN : Option String) (a : LmArgs)
    (inp : LmInput) (ext : LmExt) :
    (lmFitCore robustN a inp ext).warnings =
      (lmFitBase robustN a inp ext).warnings := by
  unfold lmFitCore
  split <;> rfl

/-- The warnings of one fit: the low-permutation-count warning followed by
the Welch-Satterthwaite group-count warning, each when its condition holds. -/
theorem lmFitBase_warnings (robustN : Option String) (a : LmArgs)
    (inp : LmInput) (ext : LmExt) :
    (lmFitBase robustN a inp ext).warnings =
      (if permTruthy a.permute ∧ permVal a.permute < 500 then [lmPermWarnMsg]
       else []) ++
      (match a.cluster, a.weights with
       | none, WeightsArg.wcol groups =>
           if a.wls_dof_correction ∧ groups.length ≠ 2 then [lmWlsWarnMsg]
           else []
       | _, _ => []) := rfl

/-- The parametric degrees of freedom of one fit, as selected at models.py
lines 1493-1514. -/
theorem lmFitBase_df0 (robustN : Option String) (a : LmArgs) (inp : LmInput)
    (ext : LmExt) :
    (lmFitBase robustN a inp ext).df0 =
      (match a.cluster with
       | some c => (nunique c : ℚ) - (inp.p : ℚ)
       | none =>
         match a.weights with
         | WeightsArg.wcol groups =>
             if a.wls_dof_correction ∧ groups.length = 2 then welchDf groups
             else (inp.n : ℚ) - (inp.p : ℚ)
         | _ => (inp.n : ℚ) - (inp.p : ℚ)) := rfl

/-- Claim C4: for identical remaining arguments, model state and numeric
oracles, `Lm.fit` with `robust=True` returns exactly the same fit result as
`Lm.fit` with `robust="hc1"` — `True` is normalised to the default estimator
`"hc1"` before any use. -/
theorem claim_c4 (a : LmArgs) (inp : LmInput) (ext : LmExt) :
    lmFit (RobustArg.rbool true) a inp ext =
      lmFit (RobustArg.rstr "hc1") a inp ext := rfl

/-- Claim C10: `Lm2.fit` with `robust=True` selects the `"hc0"` estimator and
sets the standard-error type to `"robust (hc0)"`, unlike `Lm.fit`, whose
`robust=True` selects `"hc1"` and yields standard-error type
`"robust (hc1)"`. -/
theorem claim_c10 :
    lm2NormRobust (RobustArg.rbool true) = some "hc0" ∧
    seType (lm2NormRobust (RobustArg.rbool true)) = "robust (hc0)" ∧
    normRobust "hc1" (RobustArg.rbool true) = some "hc1" ∧
    (lmFit (RobustArg.rbool true) {} inpC extC).se_type = "robust (hc1)" ∧
    seType (lm2NormRobust (RobustArg.rbool true)) ≠
      (lmFit (RobustArg.rbool true) {} inpC extC).se_type := by
  refine ⟨rfl, rfl, rfl, rfl, ?_⟩
  decide

/-- Claim C6: whenever a robust variance estimator is selected together with
a truthy `permute`, the permutation resampling is dispatched with exactly one
worker, whatever `n_jobs` the caller supplied. -/
theorem claim_c6 (r : RobustArg) (a : LmArgs) (inp : LmInput) (ext : LmExt)
    (hr : robustTruthy r = true) (hp : permTruthy a.permute = true) :
    (lmFit r a inp ext).permJobs = some 1 := by
  unfold lmFit lmFitCore
  rw [if_pos hp]
  simp [normRobust_isSome, hr]

/-- Witness for C6 at a concrete call: robust estimator `"hc1"`, 1000
permutations, `n_jobs=8` — the permutation dispatch still uses one worker. -/
theorem claim_c6_witness :
    (lmFit (RobustArg.rstr "hc1") { permute := some 1000, n_jobs := 8 } inpC
        extC).permJobs = some 1 :=
  claim_c6 _ _ inpC extC (by decide) (by decide)

/-- Claim C8: a truthy permutation count below 500 emits the non-fatal
low-count warning (observable in the warnings list), and the fit still runs
the permutation test with that count: the permutation count is the supplied
`P`, the columns are the permutation-renamed ones, and every entry of the DF
column equals `P`. -/
theorem claim_c8 (r : RobustArg) (a : LmArgs) (inp : LmInput) (ext : LmExt)
    (P : ℕ) (hP : a.permute = some P) (h0 : 0 < P) (h5 : P < 500) :
    lmPermWarnMsg ∈ (lmFit r a inp ext).warnings ∧
    (lmFit r a inp ext).numPerm = some P ∧
    (lmFit r a inp ext).columns = lmPermColumns ∧
    ∀ d ∈ (lmFit r a inp ext).dfVec, d = (P : ℚ) := by
  have ht : permTruthy a.permute = true := by
    simp [permTruthy, permVal, hP]
    omega
  have hv : permVal a.permute = P := by rw [hP]; rfl
  refine ⟨?_, ?_, ?_, ?_⟩
  · rw [lmFit, lmFitCore_warnings, lmFitBase_warnings]
    rw [if_pos ⟨ht, by rw [hv]; exact h5⟩]
    exact List.mem_append_left _ (List.mem_singleton.mpr rfl)
  · rw [lmFit, lmFitCore, if_pos ht]
    simp [hv]
  · rw [lmFit, lmFitCore, if_pos ht]
  · rw [lmFit, lmFitCore, if_pos ht]
    intro d hd
    have := List.eq_of_mem_replicate hd
    rw [this, hv]

/-- Witness for C8 at a concrete call with P = 10 permutations. -/
theorem claim_c8_witness :
    lmPermWarnMsg ∈
      (lmFit (RobustArg.rbool false) { permute := some 10 } inpC extC).warnings ∧
    (lmFit (RobustArg.rbool false) { permute := some 10 } inpC extC).numPerm =
      some 10 :=
  ⟨(claim_c8 _ _ inpC extC 10 rfl (by decide) (by decide)).1,
   (claim_c8 _ _ inpC extC 10 rfl (by decide) (by decide)).2.1⟩

/-- Concrete cluster fixture falsifying the "at least 1" part of claim C2:
two distinct clusters and a three-column design matrix. -/
def argsClusterBad : LmArgs := { cluster := some [0, 0, 1, 1] }

/-- Concrete model-state fixture with a three-column design matrix. -/
def inpP3 : LmInput := { data := [], n := 4, p := 3, y := [1, 2, 3, 4] }

/-- Counterexample to C2 as stated: with `robust="cluster"` and a present
cluster column holding 2 distinct values against a 3-column design matrix,
the reported cluster-robust degrees of freedom are −1, which is not at
least 1: the code enforces no lower bound. -/
theorem claim_c2_counterexample :
    (lmFit (RobustArg.rstr "cluster") argsClusterBad inpP3 extC).df0 = -1 ∧
    ¬ (1 ≤ (lmFit (RobustArg.rstr "cluster") argsClusterBad inpP3 extC).df0) := by
  have hn : nunique [0, 0, 1, 1] = 2 := by decide
  have h : (lmFit (RobustArg.rstr "cluster") argsClusterBad inpP3 extC).df0 = -1 := by
    rw [lmFit, lmFitCore_df0, lmFitBase_df0]
    show (nunique [0, 0, 1, 1] : ℚ) - ((3 : ℕ) : ℚ) = -1
    rw [hn]
    norm_num
  refine ⟨h, ?_⟩
  rw [h]
  norm_num

/-- Claim C2 (amended): with `robust="cluster"` and a cluster column present,
the parametric degrees of freedom equal (number of distinct cluster values)
minus (number of design-matrix columns), and, when no permutation is
requested, every coefficient's reported DF equals that difference; the code
does not guarantee the difference is at least 1. -/
theorem claim_c2_amended (r : RobustArg) (a : LmArgs) (inp : LmInput)
    (ext : LmExt) (c : List ℤ) (hr : r = RobustArg.rstr "cluster")
    (hc : a.cluster = some c) :
    (lmFit r a inp ext).df0 = (nunique c : ℚ) - (inp.p : ℚ) ∧
    (a.permute = none →
      ∀ d ∈ (lmFit r a inp ext).dfVec, d = (nunique c : ℚ) - (inp.p : ℚ)) := by
  have hdf : (lmFit r a inp ext).df0 = (nunique c : ℚ) - (inp.p : ℚ) := by
    rw [lmFit, lmFitCore_df0, lmFitBase_df0, hc]
  refine ⟨hdf, fun hper d hd => ?_⟩
  have ht : permTruthy a.permute = false := by rw [hper]; rfl
  rw [lmFit, lmFitCore, ht] at hd
  simp only [Bool.false_eq_true, if_false] at hd
  have hrep : (lmFitBase (normRobust "hc1" r) a inp ext).dfVec =
      List.replicate (ext.ols (normRobust "hc1" r)).t.length
        ((lmFitBase (normRobust "hc1" r) a inp ext).df0) := rfl
  rw [hrep] at hd
  have := List.eq_of_mem_replicate hd
  rw [this, ← lmFitCore_df0, ← lmFit, hdf]

/-- Witness for C2 (amended) at a concrete call: three distinct clusters,
one design column, reported DF = 2. -/
theorem claim_c2_amended_witness :
    (lmFit (RobustArg.rstr "cluster") { cluster := some [0, 1, 2] } inpC
        extC).df0 = (nunique [0, 1, 2] : ℚ) - (1 : ℚ) :=
  (claim_c2_amended _ _ inpC extC [0, 1, 2] rfl rfl).1

/-- Without a truthy `permute`, the fit result is the base (non-permutation)
result. -/
theorem lmFitCore_no_perm (robustN : Option String) (a : LmArgs)
    (inp : LmInput) (ext : LmExt) (ht : permTruthy a.permute = false) :
    lmFitCore robustN a inp ext = lmFitBase robustN a inp ext := by
  rw [lmFitCore, ht]
  simp

/-- The base coefficient table always carries the eight standard columns,
parametric DF and P-val included. -/
theorem lmFitBase_columns (robustN : Option String) (a : LmArgs)
    (inp : LmInput) (ext : LmExt) :
    (lmFitBase robustN a inp ext).columns = lmBaseColumns := rfl

/-- The `sig_type` attribute as assigned at models.py lines 1447-1453. -/
theorem lmFitBase_sig_type (robustN : Option String) (a : LmArgs)
    (inp : LmInput) (ext : LmExt) :
    (lmFitBase robustN a inp ext).sig_type =
      (if a.conf_int = "boot" ∧ a.permute = none then "bootstrapped"
       else if permTruthy a.permute then
         "permutation (" ++ toString (permVal a.permute) ++ ")"
       else "parametric") := rfl

/-- The base p-values are the parametric two-sided tail probabilities of the
t-statistics at the resolved degrees of freedom. -/
theorem lmFitBase_pVec (robustN : Option String) (a : LmArgs) (inp : LmInput)
    (ext : LmExt) :
    (lmFitBase robustN a inp ext).pVec =
      (ext.ols robustN).t.map
        (fun ti => 2 * (1 - ext.tcdf |ti| ((lmFitBase robustN a inp ext).df0))) :=
  rfl

/-- The base significance markers are the fixed-threshold stars of the
parametric p-values. -/
theorem lmFitBase_sigVec (robustN : Option String) (a : LmArgs)
    (inp : LmInput) (ext : LmExt) :
    (lmFitBase robustN a inp ext).sigVec =
      (lmFitBase robustN a inp ext).pVec.map sigStars := rfl

/-- Counterexample to C1 as stated: a concrete `Lm.fit` call with
`conf_int="boot"` and `permute=None` whose returned coefficient table still
contains both the parametric degrees-of-freedom column `DF` and the
parametric p-value column `P-val`. -/
theorem claim_c1_counterexample :
    "DF" ∈ (lmFit (RobustArg.rbool false) { conf_int := "boot" } inpC
        extC).columns ∧
    "P-val" ∈ (lmFit (RobustArg.rbool false) { conf_int := "boot" } inpC
        extC).columns := by
  have h : (lmFit (RobustArg.rbool false) { conf_int := "boot" } inpC
      extC).columns = lmBaseColumns := rfl
  rw [h]
  constructor <;> simp [lmBaseColumns]

/-- Claim C1 (amended): in `Lm.fit` (unlike `Lmer.fit`), requesting bootstrap
CIs without permutation only relabels the inference type as "bootstrapped":
the coefficient table keeps all eight standard columns, parametric DF and
P-val included, and the significance marker of each coefficient is the
fixed-threshold star string of its parametric p-value, not a sign test on
the bootstrap interval bounds. -/
theorem claim_c1_amended (r : RobustArg) (a : LmArgs) (inp : LmInput)
    (ext : LmExt) (hb : a.conf_int = "boot") (hp : a.permute = none) :
    (lmFit r a inp ext).columns = lmBaseColumns ∧
    (lmFit r a inp ext).sig_type = "bootstrapped" ∧
    (lmFit r a inp ext).pVec =
      (ext.ols (normRobust "hc1" r)).t.map
        (fun ti => 2 * (1 - ext.tcdf |ti| ((lmFit r a inp ext).df0))) ∧
    (lmFit r a inp ext).sigVec = (lmFit r a inp ext).pVec.map sigStars := by
  have ht : permTruthy a.permute = false := by rw [hp]; rfl
  have hcore : lmFit r a inp ext = lmFitBase (normRobust "hc1" r) a inp ext := by
    rw [lmFit, lmFitCore_no_perm _ _ _ _ ht]
  rw [hcore]
  refine ⟨lmFitBase_columns _ _ _ _, ?_, lmFitBase_pVec _ _ _ _,
    lmFitBase_sigVec _ _ _ _⟩
  rw [lmFitBase_sig_type, if_pos ⟨hb, hp⟩]

/-- Witness for C1 (amended) at a concrete bootstrap call. -/
theorem claim_c1_amended_witness :
    (lmFit (RobustArg.rbool false) { conf_int := "boot" } inpC extC).columns =
      lmBaseColumns ∧
    (lmFit (RobustArg.rbool false) { conf_int := "boot" } inpC
        extC).sig_type = "bootstrapped" :=
  ⟨(claim_c1_amended _ _ inpC extC rfl rfl).1,
   (claim_c1_amended _ _ inpC extC rfl rfl).2.1⟩

/-- The permutation-branch p-values: one `permFind` empirical p-value per
design-matrix column of the permuted statistics, paired with the observed
t-statistics. -/
theorem lmFitCore_pVec_perm (robustN : Option String) (a : LmArgs)
    (inp : LmInput) (ext : LmExt) (ht : permTruthy a.permute = true) :
    (lmFitCore robustN a inp ext).pVec =
      List.zipWith
        (fun i ti =>
          permFind ((ext.permTs robustN).map (fun row => row.getD i 0)) ti)
        (List.range (((ext.permTs robustN).headD []).length))
        (ext.ols robustN).t := by
  rw [lmFitCore, if_pos ht]

/-- Every element of a zipWith is the image of some pair of elements. -/
theorem exists_of_mem_zipWith {α β γ : Type _} {f : α → β → γ} :
    ∀ {l1 : List α} {l2 : List β} {q : γ}, q ∈ List.zipWith f l1 l2 →
      ∃ a b, q = f a b := by
  intro l1
  induction l1 with
  | nil =>
    intro l2 q h
    simp [List.zipWith] at h
  | cons a l1 ih =>
    intro l2 q h
    cases l2 with
    | nil => simp [List.zipWith] at h
    | cons b l2 =>
      rw [List.zipWith_cons_cons, List.mem_cons] at h
      rcases h with h | h
      · exact ⟨a, b, h⟩
      · exact ih h

/-- Claim C3: with a truthy permutation count P, every reported empirical
p-value equals (count of at-least-as-extreme permuted statistics + 1)/(P + 1)
for some count not exceeding P, and therefore lies in the half-open interval
(0, 1]. -/
theorem claim_c3 (r : RobustArg) (a : LmArgs) (inp : LmInput) (ext : LmExt)
    (P : ℕ) (hP : a.permute = some P) (h0 : 0 < P)
    (hlen : (ext.permTs (normRobust "hc1" r)).length = P) :
    ∀ q ∈ (lmFit r a inp ext).pVec,
      (∃ c : ℕ, c ≤ P ∧ q = ((c : ℚ) + 1) / ((P : ℚ) + 1)) ∧ 0 < q ∧ q ≤ 1 := by
  have ht : permTruthy a.permute = true := by
    simp [permTruthy, permVal, hP]
    omega
  intro q hq
  rw [lmFit, lmFitCore_pVec_perm _ _ _ _ ht] at hq
  obtain ⟨i, ti, hab⟩ := exists_of_mem_zipWith hq
  obtain ⟨c, hc, heq, hpos, hle⟩ :=
    permFind_spec
      ((ext.permTs (normRobust "hc1" r)).map (fun row => row.getD i 0)) ti
  rw [List.length_map, hlen] at hc heq
  rw [hab]
  exact ⟨⟨c, hc, heq⟩, hpos, hle⟩

/-- Witness for C3 at a concrete call: P = 2 permuted statistics for one
coefficient give empirical p-value 2/3, inside (0, 1]. -/
theorem claim_c3_witness :
    0 < ((lmFit (RobustArg.rbool false) { permute := some 2 } inpC
        extC).pVec.getD 0 0) ∧
    ((lmFit (RobustArg.rbool false) { permute := some 2 } inpC
        extC).pVec.getD 0 0) ≤ 1 := by
  have hmem : ((lmFit (RobustArg.rbool false) { permute := some 2 } inpC
      extC).pVec.getD 0 0) ∈
      (lmFit (RobustArg.rbool false) { permute := some 2 } inpC extC).pVec := by
    have hv : (lmFit (RobustArg.rbool false) { permute := some 2 } inpC
        extC).pVec = [permFind [1, 3] 2] := rfl
    rw [hv]
    simp
  have h := claim_c3 _ _ inpC extC 2 rfl (by decide) rfl _ hmem
  exact ⟨h.2.1, h.2.2⟩

/-- With no cluster column and a column-name weights argument, the resolved
degrees of freedom follow the Welch-Satterthwaite branch of models.py lines
1499-1514. -/
theorem lmFitBase_df0_weights (robustN : Option String) (a : LmArgs)
    (inp : LmInput) (ext : LmExt) (groups : List (String × List ℚ))
    (hc : a.cluster = none) (hw : a.weights = WeightsArg.wcol groups) :
    (lmFitBase robustN a inp ext).df0 =
      (if a.wls_dof_correction ∧ groups.length = 2 then welchDf groups
       else (inp.n : ℚ) - (inp.p : ℚ)) := by
  rw [lmFitBase_df0, hc, hw]

/-- With no cluster column and a column-name weights argument, the warnings
are the low-permutation warning followed by the Welch-Satterthwaite
group-count warning when the group count is not 2. -/
theorem lmFitBase_warnings_weights (robustN : Option String) (a : LmArgs)
    (inp : LmInput) (ext : LmExt) (groups : List (String × List ℚ))
    (hc : a.cluster = none) (hw : a.weights = WeightsArg.wcol groups) :
    (lmFitBase robustN a inp ext).warnings =
      (if permTruthy a.permute ∧ permVal a.permute < 500 then [lmPermWarnMsg]
       else []) ++
      (if a.wls_dof_correction ∧ groups.length ≠ 2 then [lmWlsWarnMsg]
       else []) := by
  rw [lmFitBase_warnings, hc, hw]

/-- Claim C5: with weights given as a column name and the Welch-Satterthwaite
correction enabled, more than two groups append the non-fatal group-count
warning to the model's warnings and keep the standard degrees of freedom
n − p, while exactly two groups yield the Welch-Satterthwaite degrees of
freedom (Σᵢ sᵢ²)² / Σᵢ (sᵢ⁴/(nᵢ−1)). -/
theorem claim_c5 (r : RobustArg) (a : LmArgs) (inp : LmInput) (ext : LmExt)
    (groups : List (String × List ℚ)) (hw : a.weights = WeightsArg.wcol groups)
    (hd : a.wls_dof_correction = true) (hc : a.cluster = none) :
    (2 < groups.length →
      lmWlsWarnMsg ∈ (lmFit r a inp ext).warnings ∧
      (lmFit r a inp ext).df0 = (inp.n : ℚ) - (inp.p : ℚ)) ∧
    (groups.length = 2 →
      (lmFit r a inp ext).df0 =
        ((groups.map (fun g => sampleVar g.2)).sum) ^ 2 /
          ((groups.map (fun g => sampleVar g.2 ^ 2 /
            ((g.2.length : ℚ) - 1))).sum)) := by
  constructor
  · intro hg
    have hne : groups.length ≠ 2 := by omega
    constructor
    · have h2 : (if a.wls_dof_correction = true ∧ groups.length ≠ 2 then
          [lmWlsWarnMsg] else ([] : List String)) = [lmWlsWarnMsg] :=
        if_pos ⟨hd, hne⟩
      rw [lmFit, lmFitCore_warnings, lmFitBase_warnings_weights _ _ _ _ _ hc hw,
        h2]
      exact List.mem_append_right _ (List.mem_singleton.mpr rfl)
    · rw [lmFit, lmFitCore_df0, lmFitBase_df0_weights _ _ _ _ _ hc hw, if_neg]
      intro hcontra
      exact hne hcontra.2
  · intro hg2
    rw [lmFit, lmFitCore_df0, lmFitBase_df0_weights _ _ _ _ _ hc hw,
      if_pos ⟨hd, hg2⟩]
    simp [welchDf, welchIngredients]

/-- Three-group weights fixture. -/
def groups3 : List (String × List ℚ) := [("a", [0, 2]), ("b", [0, 4]), ("c", [0, 6])]

/-- Two-group weights fixture with per-group sample variances 2 and 8. -/
def groups2 : List (String × List ℚ) := [("a", [0, 2]), ("b", [0, 4])]

/-- Witness for C5 at concrete calls: three groups trigger the stored
warning; two groups with sample variances 2 and 8 and group size 2 give
Welch-Satterthwaite degrees of freedom (2+8)²/(2²+8²) = 25/17. -/
theorem claim_c5_witness :
    lmWlsWarnMsg ∈ (lmFit (RobustArg.rbool false)
      { weights := WeightsArg.wcol groups3 } inpC extC).warnings ∧
    (lmFit (RobustArg.rbool false) { weights := WeightsArg.wcol groups2 } inpC
      extC).df0 = 25/17 := by
  constructor
  · exact ((claim_c5 (RobustArg.rbool false)
      { weights := WeightsArg.wcol groups3 } inpC extC groups3 rfl rfl rfl).1
      (by decide)).1
  · have h := (claim_c5 (RobustArg.rbool false)
      { weights := WeightsArg.wcol groups2 } inpC extC groups2 rfl rfl rfl).2 rfl
    rw [h]
    norm_num [groups2, sampleVar, listMean]

/-- Claim C9: every `Lm.fit` call mutates the model's stored data table by
exactly the two column assignments `fits` (the fitted response minus nothing
more than the residuals, i.e. response − residuals) and `residuals` (the
residuals), overwriting them if present; every other column is unchanged and
the key set grows by at most these two names. -/
theorem claim_c9 (r : RobustArg) (a : LmArgs) (inp : LmInput) (ext : LmExt) :
    getCol (lmFit r a inp ext).dataOut "fits" =
      some (List.zipWith (fun yi ri => yi - ri) inp.y
        (ext.ols (normRobust "hc1" r)).res) ∧
    getCol (lmFit r a inp ext).dataOut "residuals" =
      some (ext.ols (normRobust "hc1" r)).res ∧
    (∀ c, c ≠ "fits" → c ≠ "residuals" →
      getCol (lmFit r a inp ext).dataOut c = getCol inp.data c) ∧
    (∀ c, c ∈ keys (lmFit r a inp ext).dataOut ↔
      c ∈ keys inp.data ∨ c = "fits" ∨ c = "residuals") := by
  refine ⟨?_, ?_, fun c h1 h2 => ?_, fun c => ?_⟩
  · rw [lmFit_dataOut, getCol_setCol_ne _ _ _ _ (by decide), getCol_setCol_self]
  · rw [lmFit_dataOut, getCol_setCol_self]
  · rw [lmFit_dataOut, getCol_setCol_ne _ _ _ _ h2, getCol_setCol_ne _ _ _ _ h1]
  · rw [lmFit_dataOut, mem_keys_setCol, mem_keys_setCol]
    tauto

/-- Witness for C9 at a concrete call: fits column [0,1] = y − residuals,
residuals column [0,0], and the untouched `DV` column is unchanged. -/
theorem claim_c9_witness :
    getCol (lmFit (RobustArg.rbool false) {} inpC extC).dataOut "fits" =
      some [0, 1] ∧
    getCol (lmFit (RobustArg.rbool false) {} inpC extC).dataOut "residuals" =
      some [0, 0] ∧
    getCol (lmFit (RobustArg.rbool false) {} inpC extC).dataOut "DV" =
      getCol inpC.data "DV" := by
  have h := claim_c9 (RobustArg.rbool false) {} inpC extC
  refine ⟨?_, ?_, h.2.2.1 "DV" (by decide) (by decide)⟩
  · rw [h.1]
    norm_num [inpC, extC]
  · rw [h.2.1]
    rfl

open Matrix

/-- Modelled from the spec: the matrix inverse used by the point/variance
estimator (pymer4.utils `_ols` / `_robust_estimator`, not under the given
sources), realised exactly as determinant-inverse times adjugate. -/
def qinv {p : ℕ} (A : Matrix (Fin p) (Fin p) ℚ) : Matrix (Fin p) (Fin p) ℚ :=
  A.det⁻¹ • A.adjugate

/-- Modelled from the spec: the unweighted OLS point estimator
b = (XᵀX)⁻¹ Xᵀ y (spec section 4.1). -/
def olsBeta {n p : ℕ} (X : Matrix (Fin n) (Fin p) ℚ) (y : Fin n → ℚ) :
    Fin p → ℚ :=
  (qinv (Xᵀ * X)) *ᵥ (Xᵀ *ᵥ y)

/-- Modelled from the spec: OLS residuals r = y − Xb (spec section 4.1). -/
def olsResid {n p : ℕ} (X : Matrix (Fin n) (Fin p) ℚ) (y : Fin n → ℚ) :
    Fin n → ℚ :=
  fun i => y i - (X *ᵥ olsBeta X y) i

/-- Modelled from the spec: the HC0 sandwich covariance
(XᵀX)⁻¹ Xᵀ diag(r²) X (XᵀX)⁻¹ (spec section 4.1). -/
def hc0Cov {n p : ℕ} (X : Matrix (Fin n) (Fin p) ℚ) (y : Fin n → ℚ) :
    Matrix (Fin p) (Fin p) ℚ :=
  qinv (Xᵀ * X) *
    (Xᵀ * Matrix.diagonal (fun i => olsResid X y i ^ 2) * X) * qinv (Xᵀ * X)

/-- Modelled from the spec: the HC1 covariance is HC0 scaled by n/(n−p)
(spec section 4.1). -/
def hc1Cov {n p : ℕ} (X : Matrix (Fin n) (Fin p) ℚ) (y : Fin n → ℚ) :
    Matrix (Fin p) (Fin p) ℚ :=
  ((n : ℚ) / ((n : ℚ) - (p : ℚ))) • hc0Cov X y

/-- Standard error of coefficient j under a covariance matrix: the square
root of the j-th diagonal entry. -/
noncomputable def seOf {p : ℕ} (V : Matrix (Fin p) (Fin p) ℚ) (j : Fin p) :
    ℝ :=
  Real.sqrt ((V j j : ℚ) : ℝ)

/-- HC0 standard error of coefficient j. -/
noncomputable def seHC0 {n p : ℕ} (X : Matrix (Fin n) (Fin p) ℚ)
    (y : Fin n → ℚ) (j : Fin p) : ℝ :=
  seOf (hc0Cov X y) j

/-- HC1 standard error of coefficient j. -/
noncomputable def seHC1 {n p : ℕ} (X : Matrix (Fin n) (Fin p) ℚ)
    (y : Fin n → ℚ) (j : Fin p) : ℝ :=
  seOf (hc1Cov X y) j

/-- Concrete 2×1 design matrix (intercept only, n = 2, p = 1). -/
def X2 : Matrix (Fin 2) (Fin 1) ℚ := !![1; 1]

/-- Concrete response for the 2×1 design. -/
def y2 : Fin 2 → ℚ := ![0, 1]

/-- On the concrete design, (XᵀX)⁻¹ = [[1/2]]. -/
theorem qinv_X2 : qinv (X2ᵀ * X2) = !![1/2] := by
  have hXtX : X2ᵀ * X2 = !![2] := by
    ext i j
    fin_cases i
    fin_cases j
    simp [X2, Matrix.mul_apply, Fin.sum_univ_two, Matrix.transpose_apply,
      Matrix.vecHead, Matrix.vecTail, Matrix.cons_val_zero, Matrix.cons_val_one]
    norm_num
  rw [hXtX, qinv, Matrix.adjugate_fin_one]
  ext i j
  fin_cases i
  fin_cases j
  simp [Matrix.det_fin_one, Matrix.one_apply]

/-- On the concrete design, the OLS residuals are (−1/2, 1/2). -/
theorem olsResid_X2 : olsResid X2 y2 = ![-(1/2), 1/2] := by
  have hbeta : olsBeta X2 y2 = ![1/2] := by
    rw [olsBeta, qinv_X2]
    funext i
    fin_cases i
    simp [X2, y2, Matrix.mulVec, dotProduct, Fin.sum_univ_two, Fin.sum_univ_one,
      Matrix.vecHead, Matrix.vecTail, Matrix.transpose_apply]
  funext i
  simp only [olsResid]
  rw [hbeta]
  fin_cases i <;>
    simp [X2, y2, Matrix.mulVec, dotProduct, Fin.sum_univ_one,
      Matrix.vecHead, Matrix.vecTail] <;>
    norm_num

/-- On the concrete design, the HC0 variance of the only coefficient is
1/8. -/
theorem hc0Cov_X2 : hc0Cov X2 y2 0 0 = 1/8 := by
  rw [hc0Cov, qinv_X2, olsResid_X2]
  simp [X2, Matrix.mul_apply, Matrix.diagonal_apply, Fin.sum_univ_two,
    Fin.sum_univ_one, Matrix.vecMul, dotProduct, Matrix.transpose_apply,
    Matrix.vecHead, Matrix.vecTail]
  norm_num

/-- On the concrete design, the HC1 variance of the only coefficient is
1/4. -/
theorem hc1Cov_X2 : hc1Cov X2 y2 0 0 = 1/4 := by
  rw [hc1Cov, Matrix.smul_apply, hc0Cov_X2]
  norm_num

/-- Counterexample to C7 as stated: on the concrete 2×1 design with response
(0, 1), the HC0 standard error is √(1/8) while the HC1 standard error
divided by n/(n−p) = 2 is 1/4; the two differ, because standard errors scale
by the square root of the variance ratio, not the ratio itself. -/
theorem claim_c7_counterexample :
    seHC0 X2 y2 0 ≠ seHC1 X2 y2 0 / ((2 : ℝ) / ((2 : ℝ) - 1)) := by
  have h0 : seHC0 X2 y2 0 = Real.sqrt (1/8) := by
    rw [seHC0, seOf, hc0Cov_X2]
    norm_num
  have h1 : seHC1 X2 y2 0 = 1/2 := by
    rw [seHC1, seOf, hc1Cov_X2]
    rw [show ((1/4 : ℚ) : ℝ) = (1/2 : ℝ)^2 by norm_num]
    rw [Real.sqrt_sq (by norm_num)]
  rw [h0, h1]
  intro hcontra
  have h2 : Real.sqrt (1/8) = 1/4 := by
    rw [hcontra]
    norm_num
  have h3 := Real.sq_sqrt (by norm_num : (0:ℝ) ≤ 1/8)
  rw [h2] at h3
  norm_num at h3

/-- Claim C7 (amended): for every design matrix and response with p < n, the
HC0 standard error of each coefficient equals the HC1 standard error divided
by the square root of n/(n−p) — equivalently, the HC1 variance is the HC0
variance scaled by n/(n−p). -/
theorem claim_c7_amended {n p : ℕ} (X : Matrix (Fin n) (Fin p) ℚ)
    (y : Fin n → ℚ) (h : p < n) (j : Fin p) :
    seHC0 X y j = seHC1 X y j / Real.sqrt ((n : ℝ) / ((n : ℝ) - (p : ℝ))) := by
  have hpn : (p : ℝ) < (n : ℝ) := by exact_mod_cast h
  have hc : (0:ℝ) < (n : ℝ) / ((n : ℝ) - (p : ℝ)) := by
    apply div_pos
    · have hn : (0:ℝ) ≤ (p : ℝ) := by positivity
      linarith
    · linarith
  have hentry : ((hc1Cov X y j j : ℚ) : ℝ) =
      ((n : ℝ) / ((n : ℝ) - (p : ℝ))) * ((hc0Cov X y j j : ℚ) : ℝ) := by
    rw [hc1Cov, Matrix.smul_apply, smul_eq_mul]
    push_cast
    ring
  rw [seHC1, seHC0, seOf, seOf, hentry,
    Real.sqrt_mul hc.le, mul_div_cancel_left₀]
  exact (Real.sqrt_pos.mpr hc).ne'

/-- Witness for C7 (amended) at the concrete design: √(1/8) = √(1/4)/√2. -/
theorem claim_c7_amended_witness :
    seHC0 X2 y2 0 =
      seHC1 X2 y2 0 / Real.sqrt (((2:ℕ) : ℝ) / (((2:ℕ) : ℝ) - ((1:ℕ) : ℝ))) :=
  claim_c7_amended X2 y2 (by decide) 0

end Pymer4
